import Mathlib

/-!
Verification development for `src/LatentRolloutVisualizer.jsx`, the
recurrent latent rollout visualizer.  The component's state and handlers
are shallowly embedded: JS numbers become rationals (`ℚ`), `Float32Array`s
and JS arrays become `List ℚ`, nullable state fields become `Option`, the
two ONNX sessions become function parameters returning `Except`, and the
async scheduling of the decode effect becomes an explicit event trace.
-/

/-- Constant `LATENT_DIM` (line 5 of the source). -/
def LATENT_DIM : ℕ := 16

/-- Constant `IMG_H` (line 6). -/
def IMG_H : ℕ := 96

/-- Constant `IMG_W` (line 7). -/
def IMG_W : ℕ := 96

/-- Constant `SCALE` (line 8). -/
def SCALE : ℕ := 4

/-- Constant `NUM_LAYERS` (line 11). -/
def NUM_LAYERS : ℕ := 2

/-- Constant `HIDDEN_DIM` (line 12). -/
def HIDDEN_DIM : ℕ := 128

/-- JS numbers are modelled as rationals. -/
abbrev Scalar : Type := ℚ

/-- The latent vector state (a JS array of 16 numbers). -/
abbrev LatentVec : Type := List Scalar

/-- A flattened hidden/cell tensor of logical shape
`[NUM_LAYERS, 1, HIDDEN_DIM]` (a `Float32Array` of length 256). -/
abbrev StateTensor : Type := List Scalar

/-- Constant `planeSize = IMG_H * IMG_W` (line 70). -/
def planeSize : ℕ := IMG_H * IMG_W

/-- JS `Math.round`: rounds to the nearest integer, halves toward +∞,
i.e. `⌊x + 1/2⌋`. -/
def jsRound (x : ℚ) : ℤ := ⌊x + 1/2⌋

/-- The byte written for one colour channel (lines 81–83):
`Math.max(0, Math.min(255, Math.round(v * 255)))`. -/
def pixelByte (v : ℚ) : ℤ := max 0 (min 255 (jsRound (v * 255)))

/-- The four assignments of one iteration of the pixel loop (lines 74–84):
writes channel bytes at `idxHW*4 + 0..2` from the three planes of the
decoder output `data`, and alpha `255` at `idxHW*4 + 3`.  The RGBA buffer
is a map from byte index to byte value. -/
def setRGBA (data : ℕ → ℚ) (idxHW : ℕ) (rgba : ℕ → ℤ) : ℕ → ℤ := fun j =>
  if j = idxHW * 4 + 0 then pixelByte (data (0 * planeSize + idxHW))
  else if j = idxHW * 4 + 1 then pixelByte (data (1 * planeSize + idxHW))
  else if j = idxHW * 4 + 2 then pixelByte (data (2 * planeSize + idxHW))
  else if j = idxHW * 4 + 3 then 255
  else rgba j

/-- The double pixel loop of `runDecoder` (lines 72–86): for each
`y < IMG_H` and `x < IMG_W` it processes the pixel `idxHW = y*IMG_W + x`.
The buffer starts zero-initialised, as `createImageData` returns. -/
def runDecoderPixels (data : ℕ → ℚ) : ℕ → ℤ :=
  (List.range IMG_H).foldl (fun rgba y =>
    (List.range IMG_W).foldl (fun rgba x =>
      setRGBA data (y * IMG_W + x) rgba) rgba) (fun _ => 0)

/-- The byte value the loop is supposed to leave at channel `c` of pixel
`idxHW`. -/
def channelValue (data : ℕ → ℚ) (idxHW c : ℕ) : ℤ :=
  if c = 3 then 255 else pixelByte (data (c * planeSize + idxHW))

/-- The mutable state owned by the component: `latent` (line 20, a JS array
of 16 numbers), `hData` and `cData` (lines 21–22, nullable `Float32Array`s
for the LSTM hidden and cell state), and the `error` message (line 18). -/
structure EngineState where
  latent : LatentVec
  hData : Option StateTensor
  cData : Option StateTensor
  error : Option String
deriving DecidableEq

/-- The initial hook values: `latent = Array(LATENT_DIM).fill(0)` (line 20),
`hData = null`, `cData = null` (lines 21–22), `error = null` (line 18). -/
def initialState : EngineState :=
  { latent := List.replicate LATENT_DIM 0
    hData := none
    cData := none
    error := none }

/-- Handler `handleSliderChange(idx, value)` (lines 115–124): copies the latent
array, overwrites index `idx`, stores the copy; hidden state untouched
(the resets on lines 122–123 are commented out in the source). -/
def handleSliderChange (idx : ℕ) (value : Scalar) (s : EngineState) :
    EngineState :=
  { s with latent := s.latent.set idx value }

/-- Handler `resetLatentAndHidden()` (lines 126–130): zero latent, null hidden and
cell state. -/
def resetLatentAndHidden (s : EngineState) : EngineState :=
  { s with latent := List.replicate LATENT_DIM 0
           hData := none
           cData := none }

/-- The outputs of one run of the `lstm_latent_step` session
(lines 164–166): `next_latent` `[1,16]`, `h1` and `c1` `[2,1,128]`. -/
structure LstmOutput where
  next_latent : LatentVec
  h1 : StateTensor
  c1 : StateTensor
deriving DecidableEq

/-- The dynamics session `lstmSession.run` (lines 157–162), abstracted as a
function of the four input tensors `latent`, `action`, `h0`, `c0`; a throw
inside the `try` is an `Except.error`. -/
def LstmModel : Type :=
  LatentVec → Scalar → StateTensor → StateTensor → Except String LstmOutput

/-- The zero-filled hidden/cell array allocated on lines 151–152:
`new Float32Array(NUM_LAYERS * 1 * HIDDEN_DIM)`. -/
def zerosState : StateTensor := List.replicate (NUM_LAYERS * 1 * HIDDEN_DIM) 0

/-- Lines 148–153: the `h0`/`c0` tensors actually passed to the session —
the stored arrays when both are present, zero-filled arrays when either is
absent (`if (!hArr || !cArr)`). -/
def effectiveState (s : EngineState) : StateTensor × StateTensor :=
  match s.hData, s.cData with
  | some h, some c => (h, c)
  | _, _ => (zerosState, zerosState)

/-- Handler `stepWithAction(actionVal)` (lines 132–179), state transition of one
completed call: on success, `setLatent(nextLatentArr)`, `setHData(h1)`,
`setCData(c1)` (lines 169–174); on a throw, only `setError` (line 177). -/
def stepWithAction (model : LstmModel) (actionVal : Scalar)
    (s : EngineState) : EngineState :=
  match model s.latent actionVal (effectiveState s).1 (effectiveState s).2 with
  | .ok out =>
      { s with latent := out.next_latent
               hData := some out.h1
               cData := some out.c1 }
  | .error e => { s with error := some e }

/-!
The decode effect (lines 50–113) has dependency list
`[decoderSession, latent]`; it re-runs exactly when `setLatent` stored a
fresh array, decoding that array.  Each operation below is therefore paired
with the list of decode requests (latent vectors handed to the decoder)
that it triggers: one for every `setLatent` it performs, none otherwise.
-/

/-- The "set latent component i to value v" request from a slider, plus
the decode it triggers. -/
def editComponent (idx : ℕ) (value : Scalar) (s : EngineState) :
    EngineState × List LatentVec :=
  let s' := handleSliderChange idx value s
  (s', [s'.latent])

/-- The reset-button request, plus the decode it triggers. -/
def reset (s : EngineState) : EngineState × List LatentVec :=
  let s' := resetLatentAndHidden s
  (s', [s'.latent])

/-- The "advance with action a" request, plus the decode it triggers: on
success `setLatent` runs (line 170) and the effect decodes the new latent;
on failure `setLatent` never runs, so no decode is triggered. -/
def advance (model : LstmModel) (actionVal : Scalar) (s : EngineState) :
    EngineState × List LatentVec :=
  match model s.latent actionVal (effectiveState s).1 (effectiveState s).2 with
  | .ok out =>
      let s' := { s with latent := out.next_latent
                         hData := some out.h1
                         cData := some out.c1 }
      (s', [s'.latent])
  | .error e => ({ s with error := some e }, [])

/-!
Async decode model.  Each run of the decode effect is an `issue` event: the
effect's closure captures the latent it was created with (lines 54–58).
When the awaited `decoderSession.run` of the `k`-th issued request resolves
(`complete k`), the closure unconditionally executes `putImageData` and the
upscale blit (lines 88–105) with its captured latent's frame — the source
contains no request counter, cancellation, or staleness check, so a late
completion always overwrites the canvas.
-/

/-- One scheduler event of the decode pipeline. -/
inductive DecodeEvent where
  | issue : LatentVec → DecodeEvent
  | complete : ℕ → DecodeEvent
deriving DecidableEq

/-- The decode pipeline's observable world: all requests issued so far (in
issue order) and the latent whose frame the canvas currently shows. -/
structure DecodeWorld where
  issued : List LatentVec
  displayed : Option LatentVec
deriving DecidableEq

/-- Effect of one event: `issue z` registers a new in-flight decode of `z`;
`complete k` runs the tail of the `k`-th closure, drawing its frame with no
staleness check (a `complete` of an unknown index is a no-op). -/
def decodeStep (w : DecodeWorld) : DecodeEvent → DecodeWorld
  | .issue z => { w with issued := w.issued ++ [z] }
  | .complete k =>
      match w.issued[k]? with
      | some z => { w with displayed := some z }
      | none => w

/-- Run a whole event trace from the empty world. -/
def runDecodeTrace (tr : List DecodeEvent) : DecodeWorld :=
  tr.foldl decodeStep { issued := [], displayed := none }

/-!
Atomicity model for the success path of `stepWithAction`.  The handler's
synchronous code is split at its only suspension point, the `await
lstmSession.run(...)` on line 157: state mutations can be observed between
atoms (maximal synchronous blocks) but never inside one.
-/

/-- One primitive state mutation (a `set*` call). -/
inductive Mutation where
  | putLatent : LatentVec → Mutation
  | putH : Option StateTensor → Mutation
  | putC : Option StateTensor → Mutation
deriving DecidableEq

/-- Apply one mutation to the engine state. -/
def applyMut (s : EngineState) : Mutation → EngineState
  | .putLatent z => { s with latent := z }
  | .putH h => { s with hData := h }
  | .putC c => { s with cData := c }

/-- Apply one atom (a maximal run of synchronous code) to the state. -/
def applyAtom (s : EngineState) (atom : List Mutation) : EngineState :=
  atom.foldl applyMut s

/-- The atoms of the success path of `stepWithAction`: lines 136–155 (before
the `await`) perform no state mutation; lines 164–174 (after the `await`)
perform `setLatent`, `setHData`, `setCData` with no suspension point between
them, hence in a single atom. -/
def stepSuccessAtoms (out : LstmOutput) : List (List Mutation) :=
  [[], [.putLatent out.next_latent, .putH (some out.h1), .putC (some out.c1)]]

/-- All states observable at atom boundaries while a handler with the given
atoms runs from `s0` (including before the first and after the last atom). -/
def observableStates (s0 : EngineState) (atoms : List (List Mutation)) :
    List EngineState :=
  atoms.scanl applyAtom s0

/-- A session call that always throws, for exercising the failure path. -/
def failModel : LstmModel := fun _ _ _ _ => .error "boom"

/-- A session call that always succeeds with fixed outputs, for exercising
the success path. -/
def okModel : LstmModel := fun _ _ _ _ =>
  .ok { next_latent := 1 :: List.replicate 15 0
        h1 := List.replicate (NUM_LAYERS * 1 * HIDDEN_DIM) 1
        c1 := List.replicate (NUM_LAYERS * 1 * HIDDEN_DIM) 1 }


/-- The slider element (lines 219–229) declares `min={-3}`, `max={3}`; per
the HTML range-input contract the value it can emit is clamped to
`[min, max]`. -/
def sliderEmit (v : Scalar) : Scalar := max (-3) (min 3 v)


/-- A session call whose next latent has a component outside `[-3, 3]`. -/
def outOfRangeModel : LstmModel := fun _ _ _ _ =>
  .ok { next_latent := 5 :: List.replicate 15 0
        h1 := zerosState
        c1 := zerosState }


/-- The latent captured by the older overlapping decode request R1. -/
def latentA : LatentVec := List.replicate LATENT_DIM 0

/-- The latent captured by the newer overlapping decode request R2. -/
def latentB : LatentVec := 1 :: List.replicate 15 0


lemma setRGBA_same (data : ℕ → ℚ) (p c : ℕ) (hc : c < 4) (rgba : ℕ → ℤ) :
    setRGBA data p rgba (p * 4 + c) = channelValue data p c := by
  interval_cases c <;> simp [setRGBA, channelValue]

lemma setRGBA_other (data : ℕ → ℚ) (q p c : ℕ) (hc : c < 4) (hne : p ≠ q)
    (rgba : ℕ → ℤ) :
    setRGBA data q rgba (p * 4 + c) = rgba (p * 4 + c) := by
  simp only [setRGBA]
  rw [if_neg (by omega), if_neg (by omega), if_neg (by omega), if_neg (by omega)]

/-- Folding `setRGBA` over a list of pixel indices: at byte `p*4+c` the
result is the channel value when `p` was processed, and the untouched
accumulator otherwise. -/
lemma foldl_setRGBA (data : ℕ → ℚ) (l : List ℕ) (rgba : ℕ → ℤ)
    (p c : ℕ) (hc : c < 4) :
    (l.foldl (fun rgba i => setRGBA data i rgba) rgba) (p * 4 + c) =
      if p ∈ l then channelValue data p c else rgba (p * 4 + c) := by
  induction l generalizing rgba with
  | nil => simp
  | cons i l ih =>
      simp only [List.foldl_cons, ih, List.mem_cons]
      by_cases hmem : p ∈ l
      · simp [hmem]
      · by_cases hpi : p = i
        · subst hpi
          simp [hmem, setRGBA_same data p c hc]
        · simp [hmem, hpi, setRGBA_other data i p c hc hpi]

/-- The nested pixel loop is the fold of `setRGBA` over the flattened list
of pixel indices `y * IMG_W + x`. -/
lemma runDecoderPixels_eq_foldl (data : ℕ → ℚ) :
    runDecoderPixels data =
      (((List.range IMG_H).map (fun y =>
          (List.range IMG_W).map (fun x => y * IMG_W + x))).flatten.foldl
        (fun rgba i => setRGBA data i rgba) (fun _ => 0)) := by
  rw [List.foldl_flatten, List.foldl_map]
  simp only [runDecoderPixels, List.foldl_map]

lemma mem_pixel_index_list (p : ℕ) (hp : p < planeSize) :
    p ∈ ((List.range IMG_H).map (fun y =>
      (List.range IMG_W).map (fun x => y * IMG_W + x))).flatten := by
  rw [List.mem_flatten]
  refine ⟨(List.range IMG_W).map (fun x => p / IMG_W * IMG_W + x), ?_, ?_⟩
  · refine List.mem_map.mpr ⟨p / IMG_W, List.mem_range.mpr ?_, rfl⟩
    have : planeSize = IMG_H * IMG_W := rfl
    exact Nat.div_lt_of_lt_mul (by rw [Nat.mul_comm]; exact this ▸ hp)
  · refine List.mem_map.mpr ⟨p % IMG_W, List.mem_range.mpr ?_, ?_⟩
    · exact Nat.mod_lt _ (by norm_num [IMG_W])
    · exact Nat.div_add_mod' p IMG_W

/-- The full pixel-conversion law of the decode path: byte `p*4+c` of the
produced RGBA buffer. -/
lemma runDecoderPixels_spec (data : ℕ → ℚ) (p c : ℕ)
    (hp : p < planeSize) (hc : c < 4) :
    runDecoderPixels data (p * 4 + c) = channelValue data p c := by
  rw [runDecoderPixels_eq_foldl,
    foldl_setRGBA data _ _ p c hc, if_pos (mem_pixel_index_list p hp)]


/-- Claim C2: for every decoded frame, each channel byte at index `p*4+c`
(planes in order R, G, B) is `max(0, min(255, round(v*255)))` of the
decoder's float value `v` for that plane and position, alpha at `p*4+3` is
255, and the boundary inputs −0.1, 0, 0.5, 1, 1.1 convert to bytes
0, 0, 128, 255, 255. -/
theorem pixel_conversion_clamps (data : ℕ → ℚ) (p c : ℕ)
    (hp : p < planeSize) (hc : c < 3) :
    (runDecoderPixels data (p * 4 + c) =
        max 0 (min 255 (jsRound (data (c * planeSize + p) * 255)))
      ∧ runDecoderPixels data (p * 4 + 3) = 255)
    ∧ (pixelByte (-1/10) = 0 ∧ pixelByte 0 = 0 ∧ pixelByte (1/2) = 128
      ∧ pixelByte 1 = 255 ∧ pixelByte (11/10) = 255) := by
  refine ⟨⟨?_, ?_⟩, ?_, ?_, ?_, ?_, ?_⟩
  · rw [runDecoderPixels_spec data p c hp (by omega)]
    rw [channelValue, if_neg (by omega), pixelByte]
  · rw [runDecoderPixels_spec data p 3 hp (by norm_num), channelValue]
    simp
  · norm_num [pixelByte, jsRound]
  · norm_num [pixelByte, jsRound]
  · norm_num [pixelByte, jsRound]
  · norm_num [pixelByte, jsRound]
  · norm_num [pixelByte, jsRound]

theorem pixel_conversion_clamps_witness :
    0 < planeSize ∧ 0 < 3 ∧
    ((runDecoderPixels (fun _ => 1/2) (0 * 4 + 0) =
        max 0 (min 255 (jsRound ((fun _ : ℕ => (1/2 : ℚ)) (0 * planeSize + 0) * 255)))
      ∧ runDecoderPixels (fun _ => 1/2) (0 * 4 + 3) = 255)
    ∧ (pixelByte (-1/10) = 0 ∧ pixelByte 0 = 0 ∧ pixelByte (1/2) = 128
      ∧ pixelByte 1 = 255 ∧ pixelByte (11/10) = 255)) :=
  ⟨by decide, by decide,
    pixel_conversion_clamps (fun _ => 1/2) 0 0 (by decide) (by decide)⟩

/-- Claim C3: if the dynamics call of a step fails, the latent and the recurrent
state are exactly what they were before the call, the failure is reported,
and the engine still accepts subsequent edit, step and reset requests. -/
theorem step_failure_preserves_state (model : LstmModel) (a : Scalar)
    (s : EngineState) (e : String)
    (h : model s.latent a (effectiveState s).1 (effectiveState s).2 =
      .error e) :
    ((stepWithAction model a s).latent = s.latent
      ∧ (stepWithAction model a s).hData = s.hData
      ∧ (stepWithAction model a s).cData = s.cData)
    ∧ (stepWithAction model a s).error = some e
    ∧ (∀ idx v, (handleSliderChange idx v (stepWithAction model a s)).latent
        = s.latent.set idx v)
    ∧ (∀ (model2 : LstmModel) a2 out,
        model2 s.latent a2 (effectiveState s).1 (effectiveState s).2 =
          .ok out →
        (stepWithAction model2 a2 (stepWithAction model a s)).latent =
          out.next_latent)
    ∧ (resetLatentAndHidden (stepWithAction model a s)).latent =
        List.replicate LATENT_DIM 0 := by
  have hs : stepWithAction model a s = { s with error := some e } := by
    simp [stepWithAction, h]
  refine ⟨⟨?_, ?_, ?_⟩, ?_, ?_, ?_, ?_⟩
  · rw [hs]
  · rw [hs]
  · rw [hs]
  · rw [hs]
  · intro idx v; rw [hs]; rfl
  · intro model2 a2 out hout
    rw [hs]
    have heff : effectiveState { s with error := some e } =
        effectiveState s := by
      simp [effectiveState]
    simp [stepWithAction, heff, hout]
  · rw [hs]; rfl

theorem step_failure_preserves_state_witness :
    failModel initialState.latent 0 (effectiveState initialState).1
        (effectiveState initialState).2 = .error "boom"
    ∧ (((stepWithAction failModel 0 initialState).latent = initialState.latent
      ∧ (stepWithAction failModel 0 initialState).hData = initialState.hData
      ∧ (stepWithAction failModel 0 initialState).cData = initialState.cData)
    ∧ (stepWithAction failModel 0 initialState).error = some "boom"
    ∧ (∀ idx v,
        (handleSliderChange idx v (stepWithAction failModel 0 initialState)).latent
          = initialState.latent.set idx v)
    ∧ (∀ (model2 : LstmModel) a2 out,
        model2 initialState.latent a2 (effectiveState initialState).1
            (effectiveState initialState).2 = .ok out →
        (stepWithAction model2 a2 (stepWithAction failModel 0 initialState)).latent
          = out.next_latent)
    ∧ (resetLatentAndHidden (stepWithAction failModel 0 initialState)).latent =
        List.replicate LATENT_DIM 0) :=
  ⟨rfl, step_failure_preserves_state failModel 0 initialState "boom" rfl⟩

/-- Claim C4: with absent recurrent state, the dynamics model is invoked with
zero-filled h and c tensors of shape `[2,1,128]`, a successful step from
absent state yields exactly the same engine state as the same step from
explicitly zero-filled state, and absent state is never itself reported as
an error. -/
theorem cold_start_equiv (model : LstmModel) (a : Scalar) (s : EngineState)
    (hh : s.hData = none) (hc : s.cData = none) :
    effectiveState s = (zerosState, zerosState)
    ∧ zerosState.length = NUM_LAYERS * 1 * HIDDEN_DIM
    ∧ (∀ out, model s.latent a zerosState zerosState = .ok out →
        stepWithAction model a s = stepWithAction model a
          { s with hData := some zerosState, cData := some zerosState })
    ∧ (stepWithAction model a s).error = (stepWithAction model a
        { s with hData := some zerosState, cData := some zerosState }).error := by
  have heff : effectiveState s = (zerosState, zerosState) := by
    simp [effectiveState, hh, hc]
  have heff' : effectiveState
      { s with hData := some zerosState, cData := some zerosState } =
      (zerosState, zerosState) := by
    simp [effectiveState]
  refine ⟨heff, by simp [zerosState], ?_, ?_⟩
  · intro out hout
    simp [stepWithAction, heff, heff', hout]
  · cases hres : model s.latent a zerosState zerosState with
    | ok out => simp [stepWithAction, heff, heff', hres]
    | error e => simp [stepWithAction, heff, heff', hres]

theorem cold_start_equiv_witness :
    initialState.hData = none ∧ initialState.cData = none
    ∧ (effectiveState initialState = (zerosState, zerosState)
    ∧ zerosState.length = NUM_LAYERS * 1 * HIDDEN_DIM
    ∧ (∀ out, okModel initialState.latent 0 zerosState zerosState = .ok out →
        stepWithAction okModel 0 initialState = stepWithAction okModel 0
          { initialState with hData := some zerosState,
                              cData := some zerosState })
    ∧ (stepWithAction okModel 0 initialState).error = (stepWithAction okModel 0
        { initialState with hData := some zerosState,
                            cData := some zerosState }).error) :=
  ⟨rfl, rfl, cold_start_equiv okModel 0 initialState rfl rfl⟩

/-- Claim C5: reset sets the latent to the all-zero vector of length 16 and the
recurrent state to absent, triggers a re-decode of the zero latent, and is
idempotent on the engine state. -/
theorem reset_zeroes_state_idempotent (s : EngineState) :
    (reset s).1.latent = List.replicate LATENT_DIM 0
    ∧ (reset s).1.hData = none
    ∧ (reset s).1.cData = none
    ∧ (reset s).2 = [List.replicate LATENT_DIM 0]
    ∧ resetLatentAndHidden (resetLatentAndHidden s) = resetLatentAndHidden s := by
  simp [reset, resetLatentAndHidden]

/-- Claim C6: advance invokes the dynamics step with the current latent and the
effective (possibly zero-filled) recurrent state; on success the engine's
latent becomes exactly `next_latent`, its recurrent state exactly `h1` and
`c1`, and one decode of the new latent is issued. -/
theorem advance_updates_from_model (model : LstmModel) (a : Scalar)
    (s : EngineState) (out : LstmOutput)
    (h : model s.latent a (effectiveState s).1 (effectiveState s).2 =
      .ok out) :
    (advance model a s).1.latent = out.next_latent
    ∧ (advance model a s).1.hData = some out.h1
    ∧ (advance model a s).1.cData = some out.c1
    ∧ (advance model a s).2 = [out.next_latent] := by
  simp [advance, h]

theorem advance_updates_from_model_witness :
    okModel initialState.latent 0 (effectiveState initialState).1
        (effectiveState initialState).2 = .ok
        { next_latent := 1 :: List.replicate 15 0
          h1 := List.replicate (NUM_LAYERS * 1 * HIDDEN_DIM) 1
          c1 := List.replicate (NUM_LAYERS * 1 * HIDDEN_DIM) 1 }
    ∧ ((advance okModel 0 initialState).1.latent = 1 :: List.replicate 15 0
    ∧ (advance okModel 0 initialState).1.hData =
        some (List.replicate (NUM_LAYERS * 1 * HIDDEN_DIM) 1)
    ∧ (advance okModel 0 initialState).1.cData =
        some (List.replicate (NUM_LAYERS * 1 * HIDDEN_DIM) 1)
    ∧ (advance okModel 0 initialState).2 = [1 :: List.replicate 15 0]) :=
  ⟨rfl, advance_updates_from_model okModel 0 initialState _ rfl⟩

/-- Claim C7: editing component `idx` stores the new value there, leaves every
other component and the whole recurrent state unchanged, and triggers
exactly one decode, of the full updated latent vector. -/
theorem edit_component_single_slot (idx : ℕ) (v : Scalar) (s : EngineState)
    (hidx : idx < LATENT_DIM) (hlen : s.latent.length = LATENT_DIM) :
    (editComponent idx v s).1.latent[idx]? = some v
    ∧ (∀ j, j ≠ idx → (editComponent idx v s).1.latent[j]? = s.latent[j]?)
    ∧ (editComponent idx v s).1.hData = s.hData
    ∧ (editComponent idx v s).1.cData = s.cData
    ∧ (editComponent idx v s).2 = [(editComponent idx v s).1.latent]
    ∧ (editComponent idx v s).2.length = 1 := by
  refine ⟨?_, ?_, rfl, rfl, rfl, rfl⟩
  · simp [editComponent, handleSliderChange, List.getElem?_set,
      hlen, hidx]
  · intro j hj
    simp [editComponent, handleSliderChange, List.getElem?_set,
      Ne.symm hj]

theorem edit_component_single_slot_witness :
    3 < LATENT_DIM ∧ initialState.latent.length = LATENT_DIM
    ∧ ((editComponent 3 (5/2) initialState).1.latent[3]? = some (5/2)
    ∧ (∀ j, j ≠ 3 →
        (editComponent 3 (5/2) initialState).1.latent[j]? =
          initialState.latent[j]?)
    ∧ (editComponent 3 (5/2) initialState).1.hData = initialState.hData
    ∧ (editComponent 3 (5/2) initialState).1.cData = initialState.cData
    ∧ (editComponent 3 (5/2) initialState).2 =
        [(editComponent 3 (5/2) initialState).1.latent]
    ∧ (editComponent 3 (5/2) initialState).2.length = 1) :=
  ⟨by decide, rfl, edit_component_single_slot 3 (5/2) initialState
    (by decide) rfl⟩

/-- Claim C9: every value a slider edit can store lies in `[-3, 3]` (the range
control only admits such values, and the handler stores them verbatim),
while a dynamics step stores the model's latent without any clamping — here
a component equal to 5 is stored as-is. -/
theorem edit_values_clamped_step_values_not :
    (∀ v : Scalar, -3 ≤ sliderEmit v ∧ sliderEmit v ≤ 3)
    ∧ (∀ (idx : ℕ) (v : Scalar) (s : EngineState),
        (handleSliderChange idx (sliderEmit v) s).latent =
          s.latent.set idx (sliderEmit v))
    ∧ (stepWithAction outOfRangeModel 0 initialState).latent =
        5 :: List.replicate 15 0
    ∧ ¬ ((5 : Scalar) ≤ 3) := by
  refine ⟨?_, fun idx v s => rfl, ?_, by norm_num⟩
  · intro v
    constructor
    · exact le_max_left _ _
    · exact max_le (by norm_num) (min_le_left _ _)
  · simp [stepWithAction, outOfRangeModel]

/-- Claim C10: before any request, the engine's latent is the all-zero vector of
length 16 and the recurrent state is absent — exactly the state `reset()`
produces. -/
theorem initial_state_is_reset_state (s : EngineState)
    (h : s.error = none) :
    initialState.latent = List.replicate LATENT_DIM 0
    ∧ initialState.hData = none
    ∧ initialState.cData = none
    ∧ resetLatentAndHidden s = initialState := by
  cases s
  simp_all [initialState, resetLatentAndHidden]

theorem initial_state_is_reset_state_witness :
    (handleSliderChange 3 1 initialState).error = none
    ∧ (initialState.latent = List.replicate LATENT_DIM 0
    ∧ initialState.hData = none
    ∧ initialState.cData = none
    ∧ resetLatentAndHidden (handleSliderChange 3 1 initialState) =
        initialState) :=
  ⟨rfl, initial_state_is_reset_state (handleSliderChange 3 1 initialState) rfl⟩

/-- Claim C8: on the success path of a step, every state observable at an atom
boundary (i.e. at any suspension point of the single-threaded scheduler) is
either the full pre-step state or the full post-step state — never a new
latent paired with the old recurrent state or vice versa, because all three
mutations happen in the single synchronous block after the await. -/
theorem step_updates_latent_and_state_atomically (pre : EngineState)
    (out : LstmOutput) (s : EngineState)
    (h : s ∈ observableStates pre (stepSuccessAtoms out)) :
    (s.latent = pre.latent ∧ s.hData = pre.hData ∧ s.cData = pre.cData)
    ∨ (s.latent = out.next_latent ∧ s.hData = some out.h1
        ∧ s.cData = some out.c1) := by
  simp only [observableStates, stepSuccessAtoms, List.scanl, applyAtom,
    List.foldl_cons, List.foldl_nil, applyMut, List.mem_cons,
    List.mem_singleton, List.not_mem_nil, or_false] at h
  rcases h with h | h | h <;> subst h
  · exact Or.inl ⟨rfl, rfl, rfl⟩
  · exact Or.inl ⟨rfl, rfl, rfl⟩
  · exact Or.inr ⟨rfl, rfl, rfl⟩

theorem step_updates_latent_and_state_atomically_witness :
    initialState ∈ observableStates initialState
      (stepSuccessAtoms { next_latent := 1 :: List.replicate 15 0
                          h1 := List.replicate 256 1
                          c1 := List.replicate 256 1 })
    ∧ ((initialState.latent = initialState.latent
        ∧ initialState.hData = initialState.hData
        ∧ initialState.cData = initialState.cData)
      ∨ (initialState.latent = 1 :: List.replicate 15 0
        ∧ initialState.hData = some (List.replicate 256 1)
        ∧ initialState.cData = some (List.replicate 256 1))) :=
  ⟨List.mem_cons_self _ _,
    step_updates_latent_and_state_atomically initialState
      { next_latent := 1 :: List.replicate 15 0
        h1 := List.replicate 256 1
        c1 := List.replicate 256 1 } initialState
      (List.mem_cons_self _ _)⟩

/-- Claim C1 fails on the code: R1 = decode(latentA) is issued, R2 =
decode(latentB) is issued while R1 is in flight, R2's inference resolves
first, R1's resolves later.  Because each completion draws unconditionally
(no request counter or staleness check exists in the source), the final
canvas shows R1's stale frame for `latentA`, not the most recently issued
request's frame for `latentB`. -/
theorem stale_decode_overwrites_newer :
    (runDecodeTrace [.issue latentA, .issue latentB,
        .complete 1, .complete 0]).displayed = some latentA
    ∧ (runDecodeTrace [.issue latentA, .issue latentB,
        .complete 1, .complete 0]).issued.getLast? = some latentB
    ∧ (runDecodeTrace [.issue latentA, .issue latentB,
        .complete 1, .complete 0]).displayed ≠ some latentB := by
  have hAB : latentA ≠ latentB := by
    intro hEq
    have h0 : latentA[0]? = latentB[0]? := by rw [hEq]
    have hA : latentA[0]? = some 0 := rfl
    have hB : latentB[0]? = some 1 := rfl
    rw [hA, hB] at h0
    exact absurd (Option.some.inj h0) (by norm_num)
  refine ⟨rfl, rfl, ?_⟩
  intro hdisp
  have : some latentA = some latentB := by
    rw [← hdisp]; rfl
  exact hAB (Option.some.inj this)
